import Mathlib

/-!
Verification development for the Pravah core engine
(components/Pravah/Pravaah/pravah_core/src/engine.rs).

The engine is a bounded-concurrency tree-processing pipeline: `process_data`
walks a directory tree, filters regular files by extension, and dispatches
each admitted file to a `FileProcessor` (byte copy or first-N-lines
extraction), accumulating a job-level `ProcessingResult` of two counters.

Modelling conventions:
- Filesystem paths are lists of components (`List String`); the input root
  and the output root are such lists, and joining paths is list append.
- The walk produced by `WalkDir::new(input_path)` is an external crate and
  is modelled as its interface: a list of items, each either a traversal
  error or an entry carrying its absolute path and whether it is a regular
  file.
- Each dispatched task performs exactly one atomic `fetch_add` on exactly
  one of the two counters and the final values are read only after all
  tasks are joined, so the final counter values are the same as those of a
  sequential left fold over the walk; `process_data` is embedded as that
  fold, with the per-file task result supplied by an oracle
  (success, handled failure, or crash of the task itself).
- File contents are byte lists (`List Nat`); the filesystem seen by the
  two processors is a map from paths to file contents plus a set of
  directories, and the processors are embedded as `Except`-valued state
  transformers on it.
- The semaphore discipline of the dispatch loop (acquire_owned before
  tokio::spawn, permit dropped when the task body finishes on any path) is
  embedded as a small-step transition system with a reachability predicate.
-/

namespace Pravah

/-- Selects which FileProcessor the engine constructs (engine.rs lines
141-145). Modelled from the spec: the `ProcessingAction` enum is imported
by engine.rs from crate::models but that declaration is absent from the
sources; the spec describes it as the closed variant set
Copy | ExtractFirstLines with a line count. -/
inductive ProcessingAction where
  | Copy : ProcessingAction
  | ExtractFirstLines (num_lines : Nat) : ProcessingAction
deriving DecidableEq, Repr

/-- The per-job extension filters read at engine.rs lines 177 and 189.
Modelled from the spec: the struct itself is absent from the sources; the
fields are optional sets of extension strings, here optional lists. -/
structure FileFilters where
  include_extensions : Option (List String)
  exclude_extensions : Option (List String)
deriving DecidableEq, Repr

/-- The job description consumed by `process_data`. Modelled from the spec:
`JobParameters` is imported by engine.rs from crate::models but that
declaration is absent from the sources; fields follow the spec data model
and the uses in engine.rs (job_id at line 130, input_path at line 133,
output_path at line 134, processing_action at line 141, file_filters at
lines 177 and 189, and the optional maxConcurrency of the spec, which
engine.rs never reads). Paths are component lists. -/
structure JobParameters where
  job_id : String
  input_path : List String
  output_path : List String
  processing_action : ProcessingAction
  file_filters : FileFilters
  max_concurrency : Option Nat
deriving DecidableEq, Repr

/-- The job-level result built at engine.rs lines 255-258. Modelled from
the spec: the job-level `ProcessingResult` struct is absent from the
sources (models.rs declares an unrelated per-file struct of the same
name); the spec gives the two u64 counters, embedded as Nat since the
counts are file counts far below 2^64 and the usize-to-u64 casts at lines
256-257 are the identity there. -/
structure ProcessingResult where
  total_files_processed : Nat
  errors_encountered : Nat
deriving DecidableEq, Repr

/-- Extension of a file name, after Rust std Path::extension on the final
path component: the part after the last dot, none when there is no dot or
when the only dot is the leading character of the name. -/
def rustExtension (s : String) : Option String :=
  let r := s.toList.reverse
  let after := r.takeWhile (fun c => c ≠ '.')
  match r.dropWhile (fun c => c ≠ '.') with
  | [] => none
  | [_] => none
  | _ :: _ :: _ => some (String.mk after.reverse)

/-- File name of a path, after Rust std Path::file_name: the last
component, none for an empty path or a path ending in the parent-directory
component. -/
def rustFileName (p : List String) : Option String :=
  match p.getLast? with
  | none => none
  | some s => if s = ".." then none else some s

/-- Extension of a path, combining file_name and extension as the call
entry_path.extension() at engine.rs lines 178 and 190 does (the to_str
conversion never fails in this model, where names are already strings). -/
def pathExtension (p : List String) : Option String :=
  match rustFileName p with
  | none => none
  | some s => rustExtension s

/-- Strip a leading path from another path, after Path::strip_prefix as
called at engine.rs line 200: the remainder of the entry path once the
input root components are removed, none when the root is not a leading
part of the entry. -/
def stripPrefixPath : List String → List String → Option (List String)
  | [], p => some p
  | _ :: _, [] => none
  | a :: pre, b :: p => if a = b then stripPrefixPath pre p else none

/-- The extension-filter acceptance test of engine.rs lines 177-196, the
PathFilter of the spec: the include block skips a file whose extension is
not in the include set and skips every extensionless file, then the
exclude block skips a file whose extension is in the exclude set; both
blocks reread the extension of the entry exactly as the source does. -/
def passesFilters (filters : FileFilters) (path : List String) : Bool :=
  (match filters.include_extensions with
   | some incl =>
     match pathExtension path with
     | some ext => incl.contains ext
     | none => false
   | none => true)
  &&
  (match filters.exclude_extensions with
   | some excl =>
     match pathExtension path with
     | some ext => !excl.contains ext
     | none => true
   | none => true)

/-- One item of the sequence yielded by WalkDir at engine.rs line 160: a
per-entry traversal error, or an entry carrying its absolute path and
whether entry_path.is_file() holds (line 172). -/
inductive WalkItem where
  | err : WalkItem
  | entry (path : List String) (is_file : Bool) : WalkItem
deriving DecidableEq, Repr

/-- Result of one spawned per-file task, as observed by the loops at
engine.rs lines 227-235 and 241-247: the processor returned Ok, the
processor returned Err, or the task itself crashed so that its join handle
yields a JoinError. -/
inductive TaskOutcome where
  | success : TaskOutcome
  | failure : TaskOutcome
  | crash : TaskOutcome
deriving DecidableEq, Repr

/-- Effect of one walk item on the two counters, following the body of the
dispatch loop at engine.rs lines 160-238 together with the per-task
counter updates of lines 227-235 and the join-error handling of lines
241-247: a traversal error increments errors_encountered (line 165);
non-file entries are skipped (line 172); entries refused by the filters
are skipped (lines 177-196); a failed strip_prefix increments
errors_encountered (line 207); a dispatched file increments
total_files_processed when its task succeeds and errors_encountered when
its processor fails or the task crashes. -/
def processItem (params : JobParameters) (outcome : List String → TaskOutcome)
    (st : ProcessingResult) (it : WalkItem) : ProcessingResult :=
  match it with
  | WalkItem.err => { st with errors_encountered := st.errors_encountered + 1 }
  | WalkItem.entry path is_file =>
    if !is_file then st
    else if !passesFilters params.file_filters path then st
    else
      match stripPrefixPath params.input_path path with
      | none => { st with errors_encountered := st.errors_encountered + 1 }
      | some _ =>
        match outcome path with
        | TaskOutcome.success =>
          { st with total_files_processed := st.total_files_processed + 1 }
        | TaskOutcome.failure =>
          { st with errors_encountered := st.errors_encountered + 1 }
        | TaskOutcome.crash =>
          { st with errors_encountered := st.errors_encountered + 1 }

/-- The counters returned by process_data (engine.rs lines 129-259): both
counters start at zero (lines 137-138), every walk item contributes
through processItem, and the final values are read after all tasks join
(lines 249-250). Because every task performs exactly one atomic increment
on exactly one counter and the reads happen after the join barrier, the
final values equal those of this left fold over the walk sequence. -/
def process_data (params : JobParameters) (walk : List WalkItem)
    (outcome : List String → TaskOutcome) : ProcessingResult :=
  walk.foldl (processItem params outcome) ⟨0, 0⟩

/-- The input and output paths a walk item is dispatched with, when it is
dispatched at all: engine.rs lines 172-237 dispatch exactly the regular
files that pass the filters and whose strip_prefix succeeds, pairing the
entry path with output_base_path.join(relative_path) (line 204). -/
def dispatchTarget (params : JobParameters) (it : WalkItem) :
    Option (List String × List String) :=
  match it with
  | WalkItem.err => none
  | WalkItem.entry path is_file =>
    if is_file && passesFilters params.file_filters path then
      match stripPrefixPath params.input_path path with
      | some rel => some (path, params.output_path ++ rel)
      | none => none
    else none

/-- All dispatched input and output path pairs of a job, in walk order. -/
def dispatchTargets (params : JobParameters) (walk : List WalkItem) :
    List (List String × List String) :=
  walk.filterMap (dispatchTarget params)

/-- Whether a walk item is a per-entry traversal error. -/
def isTraversalError (it : WalkItem) : Bool :=
  match it with
  | WalkItem.err => true
  | WalkItem.entry _ _ => false

/-- Number of traversal errors in a walk (each takes the branch at
engine.rs lines 163-167). -/
def countTraversalErrors (walk : List WalkItem) : Nat :=
  walk.countP isTraversalError

/-- Whether a walk item is an admitted regular file whose relative-path
computation fails, taking the branch at engine.rs lines 205-209. -/
def isPathError (params : JobParameters) (it : WalkItem) : Bool :=
  match it with
  | WalkItem.err => false
  | WalkItem.entry path is_file =>
    is_file && passesFilters params.file_filters path
      && (stripPrefixPath params.input_path path).isNone

/-- Number of admitted entries lost to relative-path errors in a walk. -/
def countPathErrors (params : JobParameters) (walk : List WalkItem) : Nat :=
  walk.countP (isPathError params)

/-- A concrete job used for the concrete evaluations below: copy the tree
rooted at the component list in to the component list out, no filters. -/
def sampleParams : JobParameters :=
  { job_id := "job-1"
    input_path := ["in"]
    output_path := ["out"]
    processing_action := ProcessingAction.Copy
    file_filters := { include_extensions := none, exclude_extensions := none }
    max_concurrency := none }

/-- A concrete job whose caller asked for at most 7 concurrent tasks. -/
def sampleParams7 : JobParameters :=
  { job_id := "job-7"
    input_path := ["in"]
    output_path := ["out"]
    processing_action := ProcessingAction.Copy
    file_filters := { include_extensions := none, exclude_extensions := none }
    max_concurrency := some 7 }

/-- A concrete job with the include filter of the P3 scenario. -/
def sampleParamsTxt : JobParameters :=
  { sampleParams with
    file_filters := { include_extensions := some ["txt"], exclude_extensions := none } }

/-- Contribution of a single walk item to the counters, measured from the
zero state. -/
def itemResult (params : JobParameters) (outcome : List String → TaskOutcome)
    (it : WalkItem) : ProcessingResult :=
  processItem params outcome ⟨0, 0⟩ it

/-- A filesystem as seen by the two processors: regular files mapped to
their byte contents, and the set of directories that exist. Bytes are Nat
values below 256; none of the claims depends on the bound. -/
structure FS where
  files : List String → Option (List Nat)
  dirs : List String → Bool

/-- Parent of a path, after Rust std Path::parent as called at engine.rs
lines 34 and 98: the path without its final component, none only for the
empty path. -/
def parentPath (p : List String) : Option (List String) :=
  if p.isEmpty then none else some p.dropLast

/-- Effect of tokio fs create_dir_all (engine.rs lines 37 and 101): the
named directory and all its ancestors exist afterwards, everything else is
untouched, and the call succeeds. -/
def createDirAll (fs : FS) (d : List String) : FS :=
  { fs with dirs := fun q => q.isPrefixOf d || fs.dirs q }

/-- The byte-copy processor of engine.rs lines 26-57: open the input file
(error when it does not exist), take the parent of the output path (error
when there is none), create the parent directories, open the output with
create and truncate so that any previous content is discarded, and copy
the input bytes into it. The PravahError values carry only diagnostics, so
errors are collapsed to Unit. -/
def CopyFileProcessor.process_file (fs : FS)
    (input_path output_path : List String) : Except Unit FS :=
  match fs.files input_path with
  | none => Except.error ()
  | some content =>
    match parentPath output_path with
    | none => Except.error ()
    | some d =>
      let fs1 := createDirAll fs d
      Except.ok { fs1 with
        files := fun q => if q = output_path then some content else fs1.files q }

/-- Split a byte sequence at every newline byte, keeping every segment
including a trailing empty one. -/
def splitSegments : List Nat → List (List Nat)
  | [] => [[]]
  | b :: rest =>
    if b = 10 then [] :: splitSegments rest
    else
      match splitSegments rest with
      | [] => [[b]]
      | s :: ss => (b :: s) :: ss

/-- Drop one trailing carriage-return byte, as the lines reader does for a
line that ended in CRLF. -/
def stripCR (l : List Nat) : List Nat :=
  if l.getLast? = some (13 : Nat) then l.dropLast else l

/-- The line sequence produced by BufReader lines over a byte content
(engine.rs line 73): segments are separated by the newline byte, each
newline-terminated segment loses a trailing carriage return, and the final
segment is yielded only when it is nonempty (end of file with an empty
buffer yields no line). -/
def linesOf (bs : List Nat) : List (List Nat) :=
  let segs := splitSegments bs
  let init := segs.dropLast.map stripCR
  match segs.getLast? with
  | some [] => init
  | some l => init ++ [l]
  | none => init

/-- The first-N-lines processor of engine.rs lines 65-125: open the input
(error when missing), read at most num_lines lines stopping early at end
of file (lines 76-86), join the collected lines with newline and append
one trailing newline (line 95), then create the output parent directories
and write the result to the output path with create and truncate. -/
def ExtractFirstLinesProcessor.process_file (num_lines : Nat) (fs : FS)
    (input_path output_path : List String) : Except Unit FS :=
  match fs.files input_path with
  | none => Except.error ()
  | some bs =>
    let output_content_lines := (linesOf bs).take num_lines
    let final_output := List.intercalate [10] output_content_lines ++ [10]
    match parentPath output_path with
    | none => Except.error ()
    | some d =>
      let fs1 := createDirAll fs d
      Except.ok { fs1 with
        files := fun q => if q = output_path then some final_output else fs1.files q }

/-- Content of a given path after a processor run: none when the run
errored, otherwise the file table entry at that path. -/
def outputBytesAfter (r : Except Unit FS) (p : List String) :
    Option (Option (List Nat)) :=
  match r with
  | Except.ok fs => some (fs.files p)
  | Except.error _ => none

/-- A concrete filesystem holding a two-line and a five-line text file
under the input root, used by the concrete evaluations below. The
two-line file holds the bytes of the text l1 then l2, each line newline
terminated; the five-line file holds lines l1 through l5. -/
def extractSampleFS : FS :=
  { files := fun p =>
      if p = ["in", "two.txt"] then some [108, 49, 10, 108, 50, 10]
      else if p = ["in", "five.txt"] then
        some [108, 49, 10, 108, 50, 10, 108, 51, 10, 108, 52, 10, 108, 53, 10]
      else if p = ["in", "a.txt"] then some [104, 105]
      else none
    dirs := fun d => d = ["in"] || d = [] }

/-- The semaphore capacity fixed at engine.rs line 150: the local binding
max_concurrent_io_tasks is the literal 500. -/
def max_concurrent_io_tasks : Nat := 500

/-- Capacity of the Semaphore constructed at engine.rs line 151, expressed
as a function of the job parameters: the construction reads only the local
constant, never the parameters. -/
def semaphoreCapacity (_params : JobParameters) : Nat :=
  max_concurrent_io_tasks

/-- Instantaneous state of the dispatch loop and its spawned tasks:
pending counts admitted files not yet dispatched, available counts free
semaphore permits, running counts spawned tasks currently holding a
permit, and the last two fields count completed tasks per counter. -/
structure EngineState where
  pending : Nat
  available : Nat
  running : Nat
  completed_ok : Nat
  completed_err : Nat
deriving DecidableEq, Repr

/-- State of a job before any dispatch: all admitted files pending, all
permits of the semaphore of engine.rs line 151 available, nothing running
or completed. -/
def initState (params : JobParameters) (admitted : Nat) : EngineState :=
  { pending := admitted
    available := semaphoreCapacity params
    running := 0
    completed_ok := 0
    completed_err := 0 }

/-- One step of the concurrent execution of engine.rs lines 219-247.
dispatch is the loop body at lines 221-237: acquire_owned suspends until a
permit is free (so it needs one available permit) and the spawned task
then holds that permit as _permit_guard; the three finish steps are the
ends of a task body, each of which drops _permit_guard exactly once when
the async block at lines 225-236 ends: finish_ok is the Ok arm at lines
228-230, finish_err is the Err arm at lines 231-234, and finish_crash is a
task that dies abnormally, whose permit is still released by the drop and
whose JoinError is counted at lines 243-246. -/
inductive EngineStep : EngineState → EngineState → Prop where
  | dispatch (p a r t e : Nat) :
      EngineStep ⟨p + 1, a + 1, r, t, e⟩ ⟨p, a, r + 1, t, e⟩
  | finish_ok (p a r t e : Nat) :
      EngineStep ⟨p, a, r + 1, t, e⟩ ⟨p, a + 1, r, t + 1, e⟩
  | finish_err (p a r t e : Nat) :
      EngineStep ⟨p, a, r + 1, t, e⟩ ⟨p, a + 1, r, t, e + 1⟩
  | finish_crash (p a r t e : Nat) :
      EngineStep ⟨p, a, r + 1, t, e⟩ ⟨p, a + 1, r, t, e + 1⟩

/-- States an execution of a job with the given number of admitted files
can be in: the initial state, and everything reachable from it by engine
steps under any interleaving. -/
inductive Reachable (params : JobParameters) (admitted : Nat) :
    EngineState → Prop where
  | init : Reachable params admitted (initState params admitted)
  | step (s s' : EngineState) :
      Reachable params admitted s → EngineStep s s' →
      Reachable params admitted s'

theorem processItem_shift (params : JobParameters)
    (outcome : List String → TaskOutcome) (it : WalkItem) (a b : Nat) :
    processItem params outcome ⟨a, b⟩ it =
      ⟨a + (itemResult params outcome it).total_files_processed,
       b + (itemResult params outcome it).errors_encountered⟩ := by
  cases it with
  | err => simp [processItem, itemResult]
  | entry path is_file =>
    cases is_file with
    | false => simp [processItem, itemResult]
    | true =>
      by_cases h : passesFilters params.file_filters path
      · cases hs : stripPrefixPath params.input_path path with
        | none => simp [processItem, itemResult, h, hs]
        | some rel =>
          cases ho : outcome path <;>
            simp [processItem, itemResult, h, hs, ho]
      · simp [processItem, itemResult, h]

theorem process_data_shift (params : JobParameters)
    (outcome : List String → TaskOutcome) (walk : List WalkItem) :
    ∀ a b : Nat,
      walk.foldl (processItem params outcome) ⟨a, b⟩ =
        ⟨a + (process_data params walk outcome).total_files_processed,
         b + (process_data params walk outcome).errors_encountered⟩ := by
  induction walk with
  | nil => intro a b; simp [process_data]
  | cons it rest ih =>
    intro a b
    have hz := ih (itemResult params outcome it).total_files_processed
      (itemResult params outcome it).errors_encountered
    simp only [process_data, List.foldl_cons] at hz ⊢
    rw [processItem_shift, ih]
    rw [show processItem params outcome ⟨0, 0⟩ it =
      ⟨0 + (itemResult params outcome it).total_files_processed,
       0 + (itemResult params outcome it).errors_encountered⟩
      from processItem_shift params outcome it 0 0]
    simp only [Nat.zero_add] at *
    rw [hz]
    simp only [Nat.add_assoc, ProcessingResult.mk.injEq, process_data]

theorem process_data_cons (params : JobParameters)
    (outcome : List String → TaskOutcome) (it : WalkItem)
    (walk : List WalkItem) :
    process_data params (it :: walk) outcome =
      ⟨(itemResult params outcome it).total_files_processed
        + (process_data params walk outcome).total_files_processed,
       (itemResult params outcome it).errors_encountered
        + (process_data params walk outcome).errors_encountered⟩ := by
  simp only [process_data, List.foldl_cons]
  rw [show processItem params outcome ⟨0, 0⟩ it =
    ⟨0 + (itemResult params outcome it).total_files_processed,
     0 + (itemResult params outcome it).errors_encountered⟩
    from processItem_shift params outcome it 0 0]
  simp only [Nat.zero_add]
  exact process_data_shift params outcome walk _ _

theorem process_data_append (params : JobParameters)
    (outcome : List String → TaskOutcome) (xs ys : List WalkItem) :
    process_data params (xs ++ ys) outcome =
      ⟨(process_data params xs outcome).total_files_processed
        + (process_data params ys outcome).total_files_processed,
       (process_data params xs outcome).errors_encountered
        + (process_data params ys outcome).errors_encountered⟩ := by
  simp only [process_data, List.foldl_append]
  rw [show (xs.foldl (processItem params outcome) ⟨0, 0⟩ : ProcessingResult) =
    ⟨(process_data params xs outcome).total_files_processed,
     (process_data params xs outcome).errors_encountered⟩ from rfl]
  exact process_data_shift params outcome ys _ _

theorem stripPrefixPath_eq_append (pre : List String) :
    ∀ p rel, stripPrefixPath pre p = some rel → p = pre ++ rel := by
  induction pre with
  | nil =>
    intro p rel h
    simp only [stripPrefixPath, Option.some.injEq] at h
    simp [h]
  | cons a pre ih =>
    intro p rel h
    cases p with
    | nil => simp [stripPrefixPath] at h
    | cons b p =>
      simp only [stripPrefixPath] at h
      by_cases hb : a = b
      · simp only [hb, if_pos rfl] at h
        have := ih p rel h
        simp [hb, this]
      · simp [hb] at h

theorem itemCounts (params : JobParameters)
    (outcome : List String → TaskOutcome) (it : WalkItem) :
    (itemResult params outcome it).total_files_processed
      + (itemResult params outcome it).errors_encountered
      = (dispatchTarget params it).toList.length
        + (if isTraversalError it then 1 else 0)
        + (if isPathError params it then 1 else 0) := by
  cases it with
  | err => simp [itemResult, processItem, dispatchTarget, isTraversalError, isPathError]
  | entry path is_file =>
    cases is_file with
    | false =>
      simp [itemResult, processItem, dispatchTarget, isTraversalError, isPathError]
    | true =>
      by_cases h : passesFilters params.file_filters path
      · cases hs : stripPrefixPath params.input_path path with
        | none =>
          simp [itemResult, processItem, dispatchTarget, isTraversalError,
            isPathError, h, hs]
        | some rel =>
          cases ho : outcome path <;>
            simp [itemResult, processItem, dispatchTarget, isTraversalError,
              isPathError, h, hs, ho]
      · simp [itemResult, processItem, dispatchTarget, isTraversalError,
          isPathError, h]

/-- Claim C5: whenever includeExtensions is set, a regular file is
admitted only if its extension is a member of that set, every file with no
extension is rejected, and in the concrete scenario with
includeExtensions txt over the regular files a.txt, b.log and the
extensionless c, exactly a.txt is admitted and dispatched. -/
theorem C5_include_filter_semantics :
    (∀ (incl : List String) (excl : Option (List String)) (path : List String),
      pathExtension path = none →
      passesFilters ⟨some incl, excl⟩ path = false)
    ∧ (∀ (incl : List String) (excl : Option (List String))
        (path : List String) (e : String),
      pathExtension path = some e →
      passesFilters ⟨some incl, excl⟩ path = true →
      incl.contains e = true)
    ∧ dispatchTargets sampleParamsTxt
        [WalkItem.entry ["in", "a.txt"] true,
         WalkItem.entry ["in", "b.log"] true,
         WalkItem.entry ["in", "c"] true]
        = [(["in", "a.txt"], ["out", "a.txt"])] := by
  refine ⟨?_, ?_, by decide⟩
  · intro incl excl path h
    simp [passesFilters, h]
  · intro incl excl path e he hp
    simp only [passesFilters, he, Bool.and_eq_true] at hp
    exact hp.1

/-- Witness for claim C5 at concrete inputs: the extensionless file in, c
is rejected under an active include list, and the admitted file in, a.txt
has its extension txt in the include set. -/
theorem C5_witness :
    passesFilters ⟨some ["txt"], some ["log"]⟩ ["in", "c"] = false
    ∧ List.contains ["txt"] "txt" = true :=
  ⟨C5_include_filter_semantics.1 ["txt"] (some ["log"]) ["in", "c"] (by decide),
   C5_include_filter_semantics.2.1 ["txt"] none ["in", "a.txt"] "txt"
     (by decide) (by decide)⟩

/-- Claim C6: whenever excludeExtensions is set, a regular file whose
extension is in that set is rejected, independently of any include rule,
while a file with no extension is still admitted under an active exclude
list alone, and in the concrete scenario with excludeExtensions log the
files a.txt and extensionless c pass while b.log is rejected. -/
theorem C6_exclude_filter_semantics :
    (∀ (incl : Option (List String)) (excl : List String)
       (path : List String) (e : String),
      pathExtension path = some e →
      excl.contains e = true →
      passesFilters ⟨incl, some excl⟩ path = false)
    ∧ (∀ (excl : List String) (path : List String),
      pathExtension path = none →
      passesFilters ⟨none, some excl⟩ path = true)
    ∧ (passesFilters ⟨none, some ["log"]⟩ ["in", "a.txt"] = true
       ∧ passesFilters ⟨none, some ["log"]⟩ ["in", "b.log"] = false
       ∧ passesFilters ⟨none, some ["log"]⟩ ["in", "c"] = true) := by
  refine ⟨?_, ?_, by decide⟩
  · intro incl excl path e he hc
    have hc' : e ∈ excl := by simpa using hc
    simp [passesFilters, he, hc']
  · intro excl path h
    simp [passesFilters, h]

/-- Witness for claim C6 at concrete inputs: in, b.log is rejected even
though the include list would admit it, and the extensionless in, c is
admitted under the active exclude list. -/
theorem C6_witness :
    passesFilters ⟨some ["log"], some ["log"]⟩ ["in", "b.log"] = false
    ∧ passesFilters ⟨none, some ["log"]⟩ ["in", "c"] = true :=
  ⟨C6_exclude_filter_semantics.1 (some ["log"]) ["log"] ["in", "b.log"] "log"
     (by decide) (by decide),
   C6_exclude_filter_semantics.2.1 ["log"] ["in", "c"] (by decide)⟩

/-- Claim C7: the first-N-lines processor reads up to num_lines lines,
fewer when end of file comes first, and writes exactly those lines joined
by newline with one trailing newline to the output path, with no error;
concretely, with num_lines three, a two-line input yields exactly those
two lines and a five-line input yields exactly the first three. -/
theorem C7_extract_first_lines :
    (∀ (num_lines : Nat) (fs : FS) (i o : List String)
       (bs : List Nat) (d : List String),
      fs.files i = some bs → parentPath o = some d →
      outputBytesAfter (ExtractFirstLinesProcessor.process_file num_lines fs i o) o
        = some (some (List.intercalate [10] ((linesOf bs).take num_lines) ++ [10])))
    ∧ outputBytesAfter
        (ExtractFirstLinesProcessor.process_file 3 extractSampleFS
          ["in", "two.txt"] ["out", "two.txt"]) ["out", "two.txt"]
        = some (some [108, 49, 10, 108, 50, 10])
    ∧ outputBytesAfter
        (ExtractFirstLinesProcessor.process_file 3 extractSampleFS
          ["in", "five.txt"] ["out", "five.txt"]) ["out", "five.txt"]
        = some (some [108, 49, 10, 108, 50, 10, 108, 51, 10]) := by
  refine ⟨?_, by decide, by decide⟩
  intro num_lines fs i o bs d hin hpar
  simp [ExtractFirstLinesProcessor.process_file, outputBytesAfter, hin, hpar]

/-- Witness for claim C7 at a concrete input: the general statement
applied to the two-line sample file with num_lines three. -/
theorem C7_witness :
    outputBytesAfter
      (ExtractFirstLinesProcessor.process_file 3 extractSampleFS
        ["in", "two.txt"] ["out", "sub", "two.txt"]) ["out", "sub", "two.txt"]
      = some (some (List.intercalate [10]
          ((linesOf [108, 49, 10, 108, 50, 10]).take 3) ++ [10])) :=
  C7_extract_first_lines.1 3 extractSampleFS ["in", "two.txt"]
    ["out", "sub", "two.txt"] [108, 49, 10, 108, 50, 10] ["out", "sub"]
    (by decide) (by decide)

/-- Claim C10: the first-N-lines output is always the collected lines
joined by the newline byte followed by exactly one trailing newline, so
for an empty input file, and likewise when num_lines is zero, the output
file is exactly one newline byte. -/
theorem C10_trailing_newline :
    (∀ (num_lines : Nat) (fs : FS) (i o : List String)
       (bs : List Nat) (d : List String),
      fs.files i = some bs → parentPath o = some d →
      outputBytesAfter (ExtractFirstLinesProcessor.process_file num_lines fs i o) o
        = some (some (List.intercalate [10] ((linesOf bs).take num_lines) ++ [10])))
    ∧ (∀ (num_lines : Nat) (fs : FS) (i o : List String) (d : List String),
      fs.files i = some [] → parentPath o = some d →
      outputBytesAfter (ExtractFirstLinesProcessor.process_file num_lines fs i o) o
        = some (some [10]))
    ∧ (∀ (fs : FS) (i o : List String) (bs : List Nat) (d : List String),
      fs.files i = some bs → parentPath o = some d →
      outputBytesAfter (ExtractFirstLinesProcessor.process_file 0 fs i o) o
        = some (some [10])) := by
  refine ⟨?_, ?_, ?_⟩
  · intro num_lines fs i o bs d hin hpar
    simp [ExtractFirstLinesProcessor.process_file, outputBytesAfter, hin, hpar]
  · intro num_lines fs i o d hin hpar
    have h0 : linesOf ([] : List Nat) = [] := rfl
    simp [ExtractFirstLinesProcessor.process_file, outputBytesAfter, hin, hpar, h0,
      List.intercalate]
  · intro fs i o bs d hin hpar
    simp [ExtractFirstLinesProcessor.process_file, outputBytesAfter, hin, hpar,
      List.intercalate]

/-- Witness for claim C10 at a concrete input: an empty file and the
two-line file with num_lines zero both produce exactly one newline
byte. -/
theorem C10_witness :
    outputBytesAfter
      (ExtractFirstLinesProcessor.process_file 0 extractSampleFS
        ["in", "two.txt"] ["out", "two.txt"]) ["out", "two.txt"]
      = some (some [10]) :=
  C10_trailing_newline.2.2 extractSampleFS ["in", "two.txt"] ["out", "two.txt"]
    [108, 49, 10, 108, 50, 10] ["out"] (by decide) (by decide)

/-- Claim C8: a successful run of the copy processor writes an output
whose byte content is identical to the input, creating the parent
directory chain of the output as needed and overwriting whatever was at
the output path before, and every file dispatched by process_data is
paired with the output path obtained by joining the output root with the
file's path relative to the input root, so the directory structure is
mirrored. -/
theorem C8_copy_fidelity :
    (∀ (fs : FS) (i o : List String) (c : List Nat) (d : List String),
      fs.files i = some c → parentPath o = some d →
      ∃ fs', CopyFileProcessor.process_file fs i o = Except.ok fs'
        ∧ fs'.files o = some c
        ∧ (∀ q : List String, q.isPrefixOf d = true → fs'.dirs q = true))
    ∧ (∀ (params : JobParameters) (walk : List WalkItem)
        (pr : List String × List String),
      pr ∈ dispatchTargets params walk →
      ∃ rel, pr.1 = params.input_path ++ rel
        ∧ pr.2 = params.output_path ++ rel) := by
  constructor
  · intro fs i o c d hin hpar
    refine ⟨{ files := fun q => if q = o then some c else (createDirAll fs d).files q,
              dirs := (createDirAll fs d).dirs }, ?_, ?_, ?_⟩
    · simp [CopyFileProcessor.process_file, hin, hpar]
    · simp
    · intro q hq
      simp [createDirAll, hq]
  · intro params walk pr hpr
    rcases List.mem_filterMap.mp hpr with ⟨it, _, hf⟩
    cases it with
    | err => simp [dispatchTarget] at hf
    | entry path is_file =>
      simp only [dispatchTarget] at hf
      by_cases hc : is_file && passesFilters params.file_filters path
      · rw [if_pos hc] at hf
        cases hs : stripPrefixPath params.input_path path with
        | none => rw [hs] at hf; exact absurd hf (by simp)
        | some rel =>
          rw [hs] at hf
          have hp : path = params.input_path ++ rel :=
            stripPrefixPath_eq_append params.input_path path rel hs
          refine ⟨rel, ?_, ?_⟩
          · rw [← Option.some_inj.mp hf]; exact hp
          · rw [← Option.some_inj.mp hf]
      · rw [if_neg hc] at hf
        exact absurd hf (by simp)

/-- Witness for claim C8 at a concrete input: copying the sample file in,
a.txt to out, a.txt succeeds, the output bytes equal the input bytes, the
parent chain of the output exists afterwards, and the lone dispatched
pair of a one-file walk is mirrored under the output root. -/
theorem C8_witness :
    (∃ fs', CopyFileProcessor.process_file extractSampleFS
        ["in", "a.txt"] ["out", "a.txt"] = Except.ok fs'
      ∧ fs'.files ["out", "a.txt"] = some [104, 105]
      ∧ (∀ q : List String, q.isPrefixOf ["out"] = true → fs'.dirs q = true))
    ∧ (∃ rel, (["in", "a.txt"], ["out", "a.txt"]).1
          = sampleParams.input_path ++ rel
        ∧ (["in", "a.txt"], ["out", "a.txt"]).2
          = sampleParams.output_path ++ rel) :=
  ⟨C8_copy_fidelity.1 extractSampleFS ["in", "a.txt"] ["out", "a.txt"]
     [104, 105] ["out"] (by decide) (by decide),
   C8_copy_fidelity.2 sampleParams [WalkItem.entry ["in", "a.txt"] true]
     (["in", "a.txt"], ["out", "a.txt"]) (by decide)⟩

/-- Claim C9: a per-entry traversal error increments the error counter and
the walk continues with the remaining entries, never aborting the
traversal, so a walk with one extra error item yields exactly the counts
of the same walk without it plus one recorded error, and that error is
recorded. -/
theorem C9_traversal_resilience :
    ∀ (params : JobParameters) (outcome : List String → TaskOutcome)
      (xs ys : List WalkItem),
      process_data params (xs ++ WalkItem.err :: ys) outcome =
        ⟨(process_data params (xs ++ ys) outcome).total_files_processed,
         (process_data params (xs ++ ys) outcome).errors_encountered + 1⟩
      ∧ 1 ≤ (process_data params (xs ++ WalkItem.err :: ys) outcome).errors_encountered := by
  intro params oc xs ys
  have h1 := process_data_append params oc xs (WalkItem.err :: ys)
  have h2 := process_data_cons params oc WalkItem.err ys
  have h3 := process_data_append params oc xs ys
  have hr : itemResult params oc WalkItem.err = ⟨0, 1⟩ := rfl
  rw [hr] at h2
  constructor
  · rw [h1, h2, h3]
    simp only [ProcessingResult.mk.injEq]
    omega
  · rw [h1, h2]
    simp only []
    omega

/-- Counterexample to claim C1 as stated: a walk consisting of one
traversal error (for instance an unreadable directory) dispatches no file
at all, yet the two counters sum to one, so an event other than the
dispatch of an admitted file contributes to their sum. -/
theorem C1_counterexample :
    (process_data sampleParams [WalkItem.err] (fun _ => TaskOutcome.success)).total_files_processed
      + (process_data sampleParams [WalkItem.err] (fun _ => TaskOutcome.success)).errors_encountered
      = 1
    ∧ (dispatchTargets sampleParams [WalkItem.err]).length = 0 := by
  decide

/-- Claim C1 as amended: once process_data completes, the sum of
total_files_processed and errors_encountered equals the number of admitted
and dispatched regular files plus the number of traversal errors plus the
number of admitted files whose relative-path computation failed; every
dispatched file lands in exactly one counter and nothing else
contributes. -/
theorem C1_accounting :
    ∀ (params : JobParameters) (outcome : List String → TaskOutcome)
      (walk : List WalkItem),
      (process_data params walk outcome).total_files_processed
        + (process_data params walk outcome).errors_encountered
        = (dispatchTargets params walk).length
          + countTraversalErrors walk + countPathErrors params walk := by
  intro params oc walk
  induction walk with
  | nil => simp [process_data, dispatchTargets, countTraversalErrors, countPathErrors]
  | cons it rest ih =>
    rw [process_data_cons]
    have hc := itemCounts params oc it
    simp only [dispatchTargets, countTraversalErrors, countPathErrors,
      List.filterMap_cons, List.countP_cons] at ih hc ⊢
    cases hd : dispatchTarget params it with
    | none => simp only [hd, Option.toList_none, List.length_nil] at hc; simp [hd]; omega
    | some pr => simp only [hd, Option.toList_some, List.length_cons, List.length_nil] at hc; simp [hd]; omega

/-- Counterexample to claim C3 as stated: when the input root is missing,
walkdir yields a single error item, yet process_data does not fail to the
caller and does not stop before per-file work: with one more readable
entry after the error item the job still dispatches it and returns the
ordinary result of one processed file and one counted error. -/
theorem C3_counterexample :
    process_data sampleParams
      [WalkItem.err, WalkItem.entry ["in", "a.txt"] true]
      (fun _ => TaskOutcome.success) = ⟨1, 1⟩ := by
  decide

/-- Claim C3 as amended: process_data surfaces no failure to the caller at
all; it returns a ProcessingResult for every input, a missing input root
shows up as a single traversal error absorbed into errors_encountered (the
result is zero processed and one error), and the walk after an initial
error item is still processed in full. -/
theorem C3_no_setup_failures :
    ∀ (params : JobParameters) (outcome : List String → TaskOutcome)
      (walk : List WalkItem),
      process_data params [WalkItem.err] outcome = ⟨0, 1⟩
      ∧ process_data params (WalkItem.err :: walk) outcome =
          ⟨(process_data params walk outcome).total_files_processed,
           (process_data params walk outcome).errors_encountered + 1⟩ := by
  intro params oc walk
  constructor
  · rfl
  · have h2 := process_data_cons params oc WalkItem.err walk
    have hr : itemResult params oc WalkItem.err = ⟨0, 1⟩ := rfl
    rw [hr] at h2
    rw [h2]
    simp only [ProcessingResult.mk.injEq]
    omega

/-- Counterexample to claim C2 as stated: a job whose caller supplies
maxConcurrency seven still gets a concurrency gate of capacity 500, so
the capacity is not the supplied parameter. -/
theorem C2_counterexample :
    sampleParams7.max_concurrency = some 7
    ∧ semaphoreCapacity sampleParams7 = 500
    ∧ (initState sampleParams7 8).available = 500
    ∧ semaphoreCapacity sampleParams7 ≠ 7 := by
  decide

/-- Claim C2 as amended: the concurrency gate capacity used by
process_data is the constant 500 for every job; the maxConcurrency
parameter is never consulted. -/
theorem C2_capacity_constant :
    ∀ (params : JobParameters) (admitted : Nat),
      semaphoreCapacity params = 500
      ∧ (initState params admitted).available = 500 := by
  intro params admitted
  exact ⟨rfl, rfl⟩

/-- Counterexample to claim C4 as stated: with maxConcurrency seven and
eight admitted files, the execution can reach a state in which eight
processing tasks run concurrently, exceeding the requested bound, because
the gate capacity is the hardcoded 500. -/
theorem C4_counterexample :
    Reachable sampleParams7 8 ⟨0, 492, 8, 0, 0⟩
    ∧ sampleParams7.max_concurrency = some 7
    ∧ 7 < 8 := by
  refine ⟨?_, rfl, by decide⟩
  have h0 : Reachable sampleParams7 8 ⟨8, 500, 0, 0, 0⟩ := Reachable.init
  have h1 : Reachable sampleParams7 8 ⟨7, 499, 1, 0, 0⟩ :=
    Reachable.step _ _ h0 (EngineStep.dispatch 7 499 0 0 0)
  have h2 : Reachable sampleParams7 8 ⟨6, 498, 2, 0, 0⟩ :=
    Reachable.step _ _ h1 (EngineStep.dispatch 6 498 1 0 0)
  have h3 : Reachable sampleParams7 8 ⟨5, 497, 3, 0, 0⟩ :=
    Reachable.step _ _ h2 (EngineStep.dispatch 5 497 2 0 0)
  have h4 : Reachable sampleParams7 8 ⟨4, 496, 4, 0, 0⟩ :=
    Reachable.step _ _ h3 (EngineStep.dispatch 4 496 3 0 0)
  have h5 : Reachable sampleParams7 8 ⟨3, 495, 5, 0, 0⟩ :=
    Reachable.step _ _ h4 (EngineStep.dispatch 3 495 4 0 0)
  have h6 : Reachable sampleParams7 8 ⟨2, 494, 6, 0, 0⟩ :=
    Reachable.step _ _ h5 (EngineStep.dispatch 2 494 5 0 0)
  have h7 : Reachable sampleParams7 8 ⟨1, 493, 7, 0, 0⟩ :=
    Reachable.step _ _ h6 (EngineStep.dispatch 1 493 6 0 0)
  exact Reachable.step _ _ h7 (EngineStep.dispatch 0 492 7 0 0)

/-- Claim C4 as amended: in every state reachable during a job, the number
of concurrently running processing tasks never exceeds the gate capacity
of 500, and permits are conserved because each task releases its permit
exactly once when it finishes on any path, so free permits plus running
tasks always equal the capacity. -/
theorem C4_concurrency_bound :
    ∀ (params : JobParameters) (admitted : Nat) (s : EngineState),
      Reachable params admitted s →
      s.running ≤ semaphoreCapacity params
      ∧ s.available + s.running = semaphoreCapacity params := by
  intro params admitted s h
  induction h with
  | init => simp [initState]
  | step s s' _ hstep ih =>
    cases hstep with
    | dispatch p a r t e =>
      simp only [EngineState.running, EngineState.available] at ih ⊢
      omega
    | finish_ok p a r t e =>
      simp only [EngineState.running, EngineState.available] at ih ⊢
      omega
    | finish_err p a r t e =>
      simp only [EngineState.running, EngineState.available] at ih ⊢
      omega
    | finish_crash p a r t e =>
      simp only [EngineState.running, EngineState.available] at ih ⊢
      omega

/-- Witness for the amended claim C4 at a concrete execution: after one
dispatch step from the initial state of an eight-file job, one task runs,
which is within the capacity, and free permits plus running tasks equal
the capacity. -/
theorem C4_witness :
    (⟨7, 499, 1, 0, 0⟩ : EngineState).running ≤ semaphoreCapacity sampleParams7
    ∧ (⟨7, 499, 1, 0, 0⟩ : EngineState).available
        + (⟨7, 499, 1, 0, 0⟩ : EngineState).running
      = semaphoreCapacity sampleParams7 :=
  C4_concurrency_bound sampleParams7 8 ⟨7, 499, 1, 0, 0⟩
    (Reachable.step (initState sampleParams7 8) ⟨7, 499, 1, 0, 0⟩
      Reachable.init (EngineStep.dispatch 7 499 0 0 0))

end Pravah
